import Mathlib

/-
Shallow embedding of the selection / preset / batch-edit / hue-adjustment
workflow of `src/headshot_viewer.py` (qt-custom-widgets), together with
theorems checking the specification's claims about it.

Python dictionaries are embedded as association lists in insertion order
(`dget?` is `dict.get` / the `in` test, `dset` is `dict[k] = v`, which
replaces the value in place when the key is present and appends otherwise).
List index assignment `xs[i] = v` is embedded by structural recursion on the
list.  Machine integers do not overflow here (Python ints), so `Int` is used
directly.  The stubbed API client methods always report success and never
write to the record they are given; they are embedded as functions returning
the response together with the (unchanged) record, and each stateful UI
operation additionally returns the list of backend calls it issued, so that
"the facade was never invoked" is expressible.
-/

set_option linter.unusedVariables false

namespace HeadshotViewer

/-- Python `d.get(k)` on a dict embedded as an association list
(first binding wins, which coincides with dict semantics because `dset`
never introduces a duplicate key before an existing one). -/
def dget? {α : Type} : List (String × α) → String → Option α
  | [], _ => none
  | kv :: rest, k => if kv.1 = k then some kv.2 else dget? rest k

/-- Python `d[k] = v` on a dict embedded as an association list:
replace the first binding of `k` in place, or append a new binding. -/
def dset {α : Type} : List (String × α) → String → α → List (String × α)
  | [], k, v => [(k, v)]
  | kv :: rest, k, v => if kv.1 = k then (k, v) :: rest else kv :: dset rest k v

/-- Embeds class `HeadshotData` (src/headshot_viewer.py:639-649): path,
metadata, thumbnail path, selection flag, and the adjustment (edit settings)
mapping.  Metadata values are opaque to every operation modelled here, so
they are embedded as strings. -/
structure HeadshotData where
  file_path : String
  metadata : List (String × String)
  thumbnail_path : Option String
  is_selected : Bool
  edit_settings : List (String × Int)
  deriving DecidableEq

/-- Embeds `HeadshotData.__init__(file_path, metadata)`: fresh records carry
an empty adjustment mapping and a cleared selection flag. -/
def HeadshotData.mk0 (file_path : String) (metadata : List (String × String)) :
    HeadshotData :=
  { file_path := file_path, metadata := metadata, thumbnail_path := none,
    is_selected := false, edit_settings := [] }

/-- Embeds `APIResponse` (src/headshot_viewer.py:652-657) without the opaque
`data` payload, which each embedded call returns separately. -/
structure APIResponse where
  success : Bool
  error : Option String
  deriving DecidableEq

/-- Embeds the stub `HeadshotAPIClient.apply_preset` (lines 704-708): it
always succeeds and returns the record unchanged. -/
def apiClientApplyPreset (image_data : HeadshotData) (preset_name : String) :
    APIResponse × HeadshotData :=
  ({ success := true, error := none }, image_data)

/-- Embeds the stub `HeadshotAPIClient.adjust_hue` (lines 716-720): it
always succeeds and returns the record unchanged. -/
def apiClientAdjustHue (image_data : HeadshotData) (hue_value : Int) :
    APIResponse × HeadshotData :=
  ({ success := true, error := none }, image_data)

/-- State of `HeadshotGalleryTab` relevant to selection: `gallery_items`
holds the `selected` flag of each `MaterialImageLabel` tile (the tab
constructs exactly 12 of them in `_build_right_column`), `headshot_data`
is the loaded record collection (replaced wholesale by `on_images_loaded`). -/
structure GalleryState where
  gallery_items : List Bool
  headshot_data : List HeadshotData
  deriving DecidableEq

/-- The clearing loop of the single-selection branch of `select_image`
(lines 1572-1576): every record's flag is set to false. -/
def clearAll (l : List HeadshotData) : List HeadshotData :=
  l.map (fun d => { d with is_selected := false })

/-- Index assignment `headshot_data[i].is_selected = b`. -/
def setFlag : List HeadshotData → Nat → Bool → List HeadshotData
  | [], _, _ => []
  | d :: rest, 0, b => { d with is_selected := b } :: rest
  | d :: rest, i + 1, b => d :: setFlag rest i b

/-- Index read `headshot_data[i].is_selected` (only used in-bounds). -/
def selAt : List HeadshotData → Nat → Bool
  | [], _ => false
  | d :: _, 0 => d.is_selected
  | _ :: rest, i + 1 => selAt rest i

/-- Index assignment `gallery_items[i].set_selected(b)`. -/
def setItem : List Bool → Nat → Bool → List Bool
  | [], _, _ => []
  | _ :: rest, 0, b => b :: rest
  | x :: rest, i + 1, b => x :: setItem rest i b

/-- The gallery-item part of the clearing loop of `select_image` (lines
1573-1576): the loop runs over the indices of `headshot_data` and clears
`gallery_items[i]` for every such index `i` that is also within
`gallery_items`; so the first `n` item flags are cleared, where `n` is the
collection length, and items beyond `n` are left as they are. -/
def clearItems : List Bool → Nat → List Bool
  | l, 0 => l
  | [], _ + 1 => []
  | _ :: rest, n + 1 => false :: clearItems rest n

/-- Embeds `HeadshotGalleryTab.select_image(index)` (lines 1556-1582) with
the Ctrl-modifier state passed explicitly (`ctrl` true means the keyboard
modifier was `Qt.ControlModifier`, the multi-select path).  The bounds
check of line 1560 rejects a negative index and an index beyond either the
gallery items or the record collection, and returns with no mutation. -/
def select_image (s : GalleryState) (index : Int) (ctrl : Bool) : GalleryState :=
  if index < 0 ∨ (s.gallery_items.length : Int) ≤ index ∨
      (s.headshot_data.length : Int) ≤ index then
    s
  else
    let i := index.toNat
    if ctrl then
      let current_state := selAt s.headshot_data i
      { gallery_items := setItem s.gallery_items i (!current_state),
        headshot_data := setFlag s.headshot_data i (!current_state) }
    else
      { gallery_items := setItem (clearItems s.gallery_items s.headshot_data.length) i true,
        headshot_data := setFlag (clearAll s.headshot_data) i true }

/-- Embeds `MainWindow.get_selected_images` (lines 2052-2056), the current
selection: the records whose flag is true, in collection order.  The same
comprehension is used by `apply_preset_to_selected` and
`submit_gallery_settings`. -/
def get_selected_images (s : GalleryState) : List HeadshotData :=
  s.headshot_data.filter (fun d => d.is_selected)

/-- Embeds `PresetManager` (lines 776-826): the preset catalog, a dict from
preset name to parameter mapping. -/
structure PresetManager where
  presets : List (String × List (String × Int))
  deriving DecidableEq

/-- The catalog installed by `PresetManager.load_presets` (lines 789-801). -/
def mock_presets : List (String × List (String × Int)) :=
  [("Portrait Enhance", [("brightness", 10), ("contrast", 15), ("saturation", 5)]),
   ("Studio Light", [("brightness", 20), ("contrast", 10), ("warmth", 8)]),
   ("Natural Look", [("brightness", 5), ("contrast", 5), ("saturation", 2)])]

/-- Embeds `PresetManager.load_presets`: replaces the catalog with
`mock_presets` and returns the preset names. -/
def load_presets (pm : PresetManager) : PresetManager × List String :=
  ({ presets := mock_presets }, mock_presets.map Prod.fst)

/-- Observable outcome of one `PresetManager.apply_preset` call: the boolean
the method returns, the record after the call, and the backend facade calls
issued, as (file path, preset name) pairs. -/
structure ApplyOutcome where
  ok : Bool
  image_data : HeadshotData
  backend_calls : List (String × String)
  deriving DecidableEq

/-- Embeds `PresetManager.apply_preset(preset_name, image_data)` (lines
803-814).  An unknown name returns False before any facade call.  Otherwise
the source binds the catalog entry to a local `settings` variable, calls the
facade, and returns the response's success flag; the local `settings` value
is never used afterwards and the record is never written to. -/
def apply_preset (pm : PresetManager) (preset_name : String)
    (image_data : HeadshotData) : ApplyOutcome :=
  match dget? pm.presets preset_name with
  | none => { ok := false, image_data := image_data, backend_calls := [] }
  | some _settings =>
      let r := apiClientApplyPreset image_data preset_name
      if r.1.success then
        { ok := true, image_data := r.2,
          backend_calls := [(image_data.file_path, preset_name)] }
      else
        { ok := false, image_data := r.2,
          backend_calls := [(image_data.file_path, preset_name)] }

/-- Embeds `HeadshotGalleryTab.apply_preset_to_selected` (lines 1350-1357):
one `apply_preset` call per currently selected record, in collection order. -/
def apply_preset_to_selected (pm : PresetManager) (s : GalleryState)
    (preset_name : String) : List ApplyOutcome :=
  (get_selected_images s).map (fun d => apply_preset pm preset_name d)

/-- Embeds `PresetManager.save_preset` (lines 816-822): stores the settings
under the name (overwriting) and always returns True. -/
def save_preset (pm : PresetManager) (preset_name : String)
    (settings : List (String × Int)) : PresetManager × Bool :=
  ({ presets := dset pm.presets preset_name settings }, true)

/-- Embeds `PresetManager.get_preset_settings` (lines 824-826):
`self.presets.get(preset_name)`. -/
def get_preset_settings (pm : PresetManager) (preset_name : String) :
    Option (List (String × Int)) :=
  dget? pm.presets preset_name

/-- State of `HueTab` (lines 1814-2001): the current image reference, the
hue slider's value and text field's content (each absent before `setup_ui`
runs), and the preview label's text. -/
structure HueTabState where
  current_image : Option HeadshotData
  hue_slider : Option Int
  hue_value : Option String
  preview_text : String
  deriving DecidableEq

/-- Embeds `HueTab.update_preview` (lines 1845-1855). -/
def update_preview (st : HueTabState) : HueTabState :=
  match st.current_image, st.hue_slider with
  | some img, some hv =>
      { st with preview_text :=
          "Hue Preview\n" ++ img.file_path ++ "\nHue: " ++ toString hv ++ "°" }
  | some _, none => { st with preview_text := "Hue Preview\nNo image selected" }
  | none, _ => { st with preview_text := "Hue Preview\nNo image selected" }

/-- Embeds `HueTab.update_hue(value)` (lines 1857-1872), the live hue
adjustment handler.  Returns the new tab state and the backend `adjust_hue`
calls issued, as (file path, hue value) pairs.  The source performs no
validation of `value` and never writes to the record. -/
def update_hue (st : HueTabState) (value : Int) : HueTabState × List (String × Int) :=
  let st1 := match st.hue_value with
    | some _ => { st with hue_value := some (toString value) }
    | none => st
  match st1.current_image with
  | some img =>
      let r := apiClientAdjustHue img value
      if r.1.success then (update_preview st1, [(img.file_path, value)])
      else (st1, [(img.file_path, value)])
  | none =>
      ({ st1 with preview_text :=
          "Hue Preview\nNo image selected\nHue: " ++ toString value ++ "°" }, [])

/-- Decimal digit value of a character, when it is a digit. -/
def digitVal? (c : Char) : Option Nat :=
  if c.isDigit then some (c.toNat - 48) else none

/-- Decimal value of a digit string (None on a non-digit). -/
def decDigitsAux : List Char → Nat → Option Nat
  | [], acc => some acc
  | c :: rest, acc =>
      match digitVal? c with
      | some d => decDigitsAux rest (acc * 10 + d)
      | none => none

/-- Decimal value of a non-empty digit string. -/
def decDigits? (cs : List Char) : Option Nat :=
  match cs with
  | [] => none
  | _ => decDigitsAux cs 0

/-- Embeds Python `int(text)` on the inputs relevant here: an optional sign
followed by decimal digits (Python's tolerance for surrounding whitespace
and digit-group underscores is not needed by any claim and is omitted);
`none` embeds the raised `ValueError`. -/
def parseInt? (text : String) : Option Int :=
  match text.data with
  | '-' :: rest => (decDigits? rest).map (fun n => -(n : Int))
  | '+' :: rest => (decDigits? rest).map (fun n => (n : Int))
  | cs => (decDigits? cs).map (fun n => (n : Int))

/-- Embeds `HueTab.update_slider_from_text(text)` (lines 1874-1883):
`int(text)` (a `ValueError` is silently ignored), then the slider is set
only when the parsed value lies in [-180, 180] and the slider exists;
otherwise nothing happens. -/
def update_slider_from_text (st : HueTabState) (text : String) : HueTabState :=
  match parseInt? text with
  | none => st
  | some value =>
      if -180 ≤ value ∧ value ≤ 180 then
        match st.hue_slider with
        | some _ => { st with hue_slider := some value }
        | none => st
      else st

/-- Values of the gallery form settings dict (lines 1362-1366). -/
inductive SettingValue
  | str (s : String)
  | bool (b : Bool)
  deriving DecidableEq

/-- The settings dict built by `submit_gallery_settings` (lines 1362-1366). -/
def gallery_form_settings : List (String × SettingValue) :=
  [("filter_type", SettingValue.str "example_filter"),
   ("sort_order", SettingValue.str "date_desc"),
   ("enable_feature", SettingValue.bool true)]

/-- Embeds `HeadshotGalleryTab.submit_gallery_settings` (lines 1359-1371):
the targets are the currently selected records, and
`APIService.apply_batch_edits` (the batch facade call, lines 975-978) is
invoked only when that list is non-empty (`if selected_images:`).  Returns
the state, unchanged by the source, and the list of batch facade
invocations as (targets, settings) pairs. -/
def submit_gallery_settings (s : GalleryState) :
    GalleryState × List (List HeadshotData × List (String × SettingValue)) :=
  let selected_images := get_selected_images s
  if selected_images.isEmpty then (s, [])
  else (s, [(selected_images, gallery_form_settings)])

/-- Embeds `ImageProcessor.process_batch(images, settings)` (lines 765-773):
one `process_single_image` call per image, in order (the stubs mutate no
record). -/
def process_batch (images : List HeadshotData)
    (settings : List (String × SettingValue)) :
    List (HeadshotData × List (String × SettingValue)) :=
  images.map (fun im => (im, settings))

/-- The parameter names for which `EditorTab._build_left_column` (lines
1712-1735) creates slider controls; each slider is created with declared
range [-100, 100] (line 1755, `create_slider_widget(-100, 100, 0, ...)`). -/
def editorParams : List String :=
  ["Brightness", "Contrast", "Saturation", "Exposure",
   "Highlights", "Shadows", "Whites", "Blacks",
   "Clarity", "Texture", "Vibrance", "Dehaze"]

/-- The declared numeric range of each recognized adjustment parameter:
the twelve editor sliders carry range [-100, 100], and the hue slider is
created with range [-180, 180] (line 1936).  Any other name is
unrecognized. -/
def paramRange (p : String) : Option (Int × Int) :=
  if p ∈ editorParams then some (-100, 100)
  else if p = "hue" then some (-180, 180)
  else none

/-- One adjustment-mapping entry is well formed when its key is recognized
and its value lies within the key's declared range. -/
def entryOk (kv : String × Int) : Bool :=
  match paramRange kv.1 with
  | some lohi => decide (lohi.1 ≤ kv.2) && decide (kv.2 ≤ lohi.2)
  | none => false

/-- An adjustment mapping is well formed when every entry is. -/
def wfSettings (d : List (String × Int)) : Prop :=
  ∀ kv ∈ d, entryOk kv = true

instance (d : List (String × Int)) : Decidable (wfSettings d) :=
  List.decidableBAll _ d

/-- Combined application state for the adjustment-mapping invariant: the
gallery tab's state and the editor tab's working settings dict plus its
current-image reference.  In the source the editor holds a Python reference
to a record object of the gallery's collection; since the collection is
only ever updated element-wise at fixed positions, that aliasing is
embedded as the record's index in the collection. -/
structure AppState where
  gallery : GalleryState
  editor_settings : List (String × Int)
  editor_current : Option Nat
  deriving DecidableEq

/-- Embeds the load path (`FileManager.load_images`, lines 857-877, feeding
`HeadshotGalleryTab.on_images_loaded`, lines 1329-1335): the collection is
replaced by freshly constructed records, each with an empty adjustment
mapping and only its metadata set.  The editor's current-image reference
then aliases an object that is no longer in the collection, so writes
through it can no longer reach any collection record; this is embedded by
clearing the index. -/
def load_images_op (st : AppState) (paths : List String)
    (md : List (String × String)) : AppState :=
  let hd := paths.map (fun p => HeadshotData.mk0 p md)
  { st with gallery := { st.gallery with headshot_data := hd }, editor_current := none }

/-- Embeds `EditorTab.on_slider_changed(parameter_name, value)` (lines
1688-1697): writes the tab's working settings dict (the record is not
written; `process_single_image` is a stub that mutates nothing). -/
def on_slider_changed (st : AppState) (p : String) (v : Int) : AppState :=
  { st with editor_settings := dset st.editor_settings p v }

/-- Embeds `EditorTab.set_current_image` plus `load_image_settings` (lines
1621-1637): the current reference is set and the record's adjustment
mapping is copied into the tab's working dict. -/
def set_current_image (st : AppState) (i : Nat) : AppState :=
  { st with
    editor_current := some i,
    editor_settings := match st.gallery.headshot_data[i]? with
      | some r => r.edit_settings
      | none => st.editor_settings }

/-- Index assignment `records[i].edit_settings = d`. -/
def setSettings : List HeadshotData → Nat → List (String × Int) → List HeadshotData
  | [], _, _ => []
  | r :: rest, 0, d => { r with edit_settings := d } :: rest
  | r :: rest, i + 1, d => r :: setSettings rest i d

/-- Embeds `EditorTab.reset_editor_settings` (lines 1664-1673): clears the
tab's working dict and, when a current image is set, that record's
adjustment mapping. -/
def reset_editor_settings (st : AppState) : AppState :=
  let hd := match st.editor_current with
    | some i => setSettings st.gallery.headshot_data i []
    | none => st.gallery.headshot_data
  { st with editor_settings := [], gallery := { st.gallery with headshot_data := hd } }

/-- Embeds `EditorTab.save_current_edits` (lines 1675-1686): when a current
image is set, its adjustment mapping becomes a copy of the tab's working
dict (`save_image` is a stub that mutates nothing). -/
def save_current_edits (st : AppState) : AppState :=
  match st.editor_current with
  | some i =>
      let hd := setSettings st.gallery.headshot_data i st.editor_settings
      { st with gallery := { st.gallery with headshot_data := hd } }
  | none => st

/-- Embeds `HeadshotGalleryTab.apply_preset_to_selected` at the level of the
record collection: each selected record is replaced by the record resulting
from its `apply_preset` call (which, per the source, is the record itself). -/
def apply_preset_selected_app (st : AppState) (pm : PresetManager)
    (preset_name : String) : AppState :=
  let hd := st.gallery.headshot_data.map (fun r =>
    if r.is_selected then (apply_preset pm preset_name r).image_data else r)
  { st with gallery := { st.gallery with headshot_data := hd } }

/-- The adjustment-mapping invariant of the specification: every record of
the collection, and the editor tab's working dict, holds only recognized
parameter names with in-range values. -/
def Invariant (st : AppState) : Prop :=
  (∀ r ∈ st.gallery.headshot_data, wfSettings r.edit_settings) ∧
  wfSettings st.editor_settings

instance (st : AppState) : Decidable (Invariant st) :=
  inferInstanceAs (Decidable (_ ∧ _))

/-- One user-triggered operation of the coordinator, as embedded above.
The slider step carries the guarantees of the emitting `QSlider`: its
parameter is one of the twelve editor parameters (the callback is bound to
one of them at construction, line 1756) and its value lies in the declared range
[-100, 100]. -/
inductive Step : AppState → AppState → Prop
  | load (st : AppState) (paths : List String) (md : List (String × String)) :
      Step st (load_images_op st paths md)
  | select (st : AppState) (index : Int) (ctrl : Bool) :
      Step st { st with gallery := select_image st.gallery index ctrl }
  | setCurrent (st : AppState) (i : Nat) :
      Step st (set_current_image st i)
  | slider (st : AppState) (p : String) (v : Int) (hp : p ∈ editorParams)
      (hlo : -100 ≤ v) (hhi : v ≤ 100) :
      Step st (on_slider_changed st p v)
  | resetEditor (st : AppState) :
      Step st (reset_editor_settings st)
  | saveCurrent (st : AppState) :
      Step st (save_current_edits st)
  | applyPreset (st : AppState) (pm : PresetManager) (preset_name : String) :
      Step st (apply_preset_selected_app st pm preset_name)

/-- A sample record used by the concrete-evaluation theorems below. -/
def mkRec (n : Nat) : HeadshotData :=
  HeadshotData.mk0 ("img" ++ toString n) []

/-- A gallery state with the 12 gallery tiles exactly as
`_build_right_column` constructs them, and a 13-record collection as
`on_images_loaded` installs it (that handler accepts any record list; the
stubbed scan delivers 24, so collections larger than the 12 tiles are the
program's normal state after a load). -/
def sampleState13 : GalleryState :=
  { gallery_items := List.replicate 12 false,
    headshot_data := (List.range 13).map mkRec }

/-- The preset manager right after `load_presets` ran at startup
(`APIService.initialize`, line 956). -/
def pmInit : PresetManager := { presets := mock_presets }

/-- A hue tab state with an image loaded, as `set_current_image` and
`setup_ui` produce it. -/
def hueState0 : HueTabState :=
  { current_image := some (mkRec 0), hue_slider := some 0, hue_value := some "0",
    preview_text := "Hue Preview\nSelect an image from the gallery" }

/-- An application state right after a 13-file directory load. -/
def app0 : AppState :=
  { gallery := sampleState13, editor_settings := [], editor_current := none }

theorem dget?_dset_self {α : Type} (d : List (String × α)) (k : String) (v : α) :
    dget? (dset d k v) k = some v := by
  induction d with
  | nil => simp [dset, dget?]
  | cons kv rest ih =>
    by_cases h : kv.1 = k
    · simp [dset, h, dget?]
    · simp [dset, h, dget?, ih]

theorem dget?_dset_ne {α : Type} (d : List (String × α)) (k k' : String) (v : α)
    (hne : k' ≠ k) : dget? (dset d k v) k' = dget? d k' := by
  induction d with
  | nil => simp [dset, dget?, Ne.symm hne]
  | cons kv rest ih =>
    by_cases h : kv.1 = k
    · have hk : kv.1 ≠ k' := by rw [h]; exact Ne.symm hne
      simp [dset, h, dget?, Ne.symm hne, hk]
    · simp [dset, h, dget?, ih]

theorem dget?_eq_none_of_not_mem {α : Type} (d : List (String × α)) (k : String)
    (h : k ∉ d.map Prod.fst) : dget? d k = none := by
  induction d with
  | nil => rfl
  | cons kv rest ih =>
    simp only [List.map_cons, List.mem_cons, not_or] at h
    have hk : kv.1 ≠ k := fun hh => h.1 hh.symm
    simp [dget?, hk, ih h.2]

/-- C10: `save_preset` always returns True; resolving the saved name
afterwards returns exactly the saved settings; every other catalog entry is
unchanged; and resolving a name that was never saved or loaded returns
None. -/
theorem save_preset_roundtrip (pm : PresetManager) (preset_name : String)
    (settings : List (String × Int)) :
    (save_preset pm preset_name settings).2 = true ∧
    get_preset_settings (save_preset pm preset_name settings).1 preset_name =
      some settings ∧
    (∀ other, other ≠ preset_name →
      get_preset_settings (save_preset pm preset_name settings).1 other =
        get_preset_settings pm other) ∧
    (∀ name, name ∉ pm.presets.map Prod.fst → get_preset_settings pm name = none) := by
  refine ⟨rfl, ?_, ?_, ?_⟩
  · exact dget?_dset_self pm.presets preset_name settings
  · intro other hne
    exact dget?_dset_ne pm.presets preset_name other settings hne
  · intro name hname
    exact dget?_eq_none_of_not_mem pm.presets name hname

theorem save_preset_roundtrip_witness :
    get_preset_settings (save_preset pmInit "Warm Glow" [("hue", 15)]).1 "Warm Glow" =
      some [("hue", 15)] ∧
    get_preset_settings (save_preset pmInit "Warm Glow" [("hue", 15)]).1 "Natural Look" =
      get_preset_settings pmInit "Natural Look" ∧
    get_preset_settings pmInit "Nonexistent" = none :=
  ⟨(save_preset_roundtrip pmInit "Warm Glow" [("hue", 15)]).2.1,
   (save_preset_roundtrip pmInit "Warm Glow" [("hue", 15)]).2.2.1 "Natural Look"
     (by decide),
   (save_preset_roundtrip pmInit "Warm Glow" [("hue", 15)]).2.2.2 "Nonexistent"
     (by decide)⟩

/-- C3: a selection with an index outside the collection's bounds (negative
or at least the collection length) performs no state mutation at all — the
whole gallery state, and hence the current selection, is unchanged. -/
theorem select_image_out_of_bounds (s : GalleryState) (index : Int) (ctrl : Bool)
    (h : index < 0 ∨ (s.headshot_data.length : Int) ≤ index) :
    select_image s index ctrl = s ∧
    get_selected_images (select_image s index ctrl) = get_selected_images s := by
  have hg : index < 0 ∨ (s.gallery_items.length : Int) ≤ index ∨
      (s.headshot_data.length : Int) ≤ index := by
    rcases h with h | h
    · exact Or.inl h
    · exact Or.inr (Or.inr h)
  have he : select_image s index ctrl = s := by
    unfold select_image
    rw [if_pos hg]
  exact ⟨he, by rw [he]⟩

theorem select_image_out_of_bounds_witness :
    select_image sampleState13 100 false = sampleState13 ∧
    get_selected_images (select_image sampleState13 100 false) =
      get_selected_images sampleState13 :=
  select_image_out_of_bounds sampleState13 100 false (Or.inr (by decide))

/-- C4: evaluation at the failing input.  The catalog resolves Studio Light
to exactly its three parameters and the `apply_preset` call reports
success, yet the target record's adjustment mapping stays empty: the
source computes the `settings` binding and never merges it into the
record. -/
theorem apply_preset_studio_light_no_merge :
    dget? mock_presets "Studio Light" =
      some [("brightness", 20), ("contrast", 10), ("warmth", 8)] ∧
    (apply_preset pmInit "Studio Light" (mkRec 0)).ok = true ∧
    (apply_preset pmInit "Studio Light" (mkRec 0)).image_data.edit_settings = [] :=
  ⟨by decide, by decide, by decide⟩

/-- C5: applying a preset whose name is not in the catalog fails (returns
False, the source's encoding of an unknown preset), issues no backend
facade call, and leaves every target record — in particular its adjustment
mapping — unchanged; the same holds for every target of
`apply_preset_to_selected`. -/
theorem apply_preset_unknown (pm : PresetManager) (preset_name : String)
    (h : dget? pm.presets preset_name = none) (image_data : HeadshotData)
    (s : GalleryState) :
    apply_preset pm preset_name image_data =
      { ok := false, image_data := image_data, backend_calls := [] } ∧
    apply_preset_to_selected pm s preset_name =
      (get_selected_images s).map
        (fun d => { ok := false, image_data := d, backend_calls := [] }) := by
  have hfun : ∀ d : HeadshotData, apply_preset pm preset_name d =
      { ok := false, image_data := d, backend_calls := [] } := by
    intro d
    unfold apply_preset
    rw [h]
  refine ⟨hfun image_data, ?_⟩
  unfold apply_preset_to_selected
  rw [funext hfun]

theorem apply_preset_unknown_witness :
    apply_preset pmInit "Nonexistent" (mkRec 0) =
      { ok := false, image_data := mkRec 0, backend_calls := [] } ∧
    apply_preset_to_selected pmInit sampleState13 "Nonexistent" =
      (get_selected_images sampleState13).map
        (fun d => { ok := false, image_data := d, backend_calls := [] }) :=
  apply_preset_unknown pmInit "Nonexistent" (by decide) (mkRec 0) sampleState13

/-- C6 counterexample: the live hue adjustment to 200 does not fail with
InvalidParameter — no validation exists.  With an image loaded, `update_hue`
with the out-of-range value 200 writes the text field first and then issues
the backend `adjust_hue` call carrying 200, completing normally (the record
itself is untouched). -/
theorem update_hue_200_not_rejected :
    (update_hue hueState0 200).2 = [("img0", 200)] ∧
    (update_hue hueState0 200).1.hue_value = some "200" ∧
    (update_hue hueState0 200).1.current_image = some (mkRec 0) :=
  ⟨by decide, by decide, by decide⟩

/-- C6 amended: an out-of-range live hue value coming through the text
field is rejected before any mutation but silently — `update_slider_from_text`
leaves the tab state entirely unchanged (no error is reported to the
caller) — and `update_hue` never modifies the current record: the
current-image reference is preserved and the stubbed backend call returns
the record unchanged. -/
theorem hue_out_of_range_silently_ignored (st : HueTabState) (text : String)
    (v : Int) (hp : parseInt? text = some v) (hout : v < -180 ∨ 180 < v) (w : Int) :
    update_slider_from_text st text = st ∧
    (update_hue st w).1.current_image = st.current_image ∧
    (∀ img : HeadshotData, (apiClientAdjustHue img w).2 = img) := by
  refine ⟨?_, ?_, fun img => rfl⟩
  · unfold update_slider_from_text
    rw [hp]
    have hcond : ¬(-180 ≤ v ∧ v ≤ 180) := by
      rcases hout with h | h
      · exact fun hc => absurd hc.1 (by omega)
      · exact fun hc => absurd hc.2 (by omega)
    exact if_neg hcond
  · rcases st with ⟨ci, hs, hv, pt⟩
    cases hv <;> cases ci <;> cases hs <;>
      simp [update_hue, apiClientAdjustHue, update_preview]

theorem hue_out_of_range_silently_ignored_witness :
    update_slider_from_text hueState0 "200" = hueState0 ∧
    (update_hue hueState0 200).1.current_image = hueState0.current_image ∧
    (∀ img : HeadshotData, (apiClientAdjustHue img 200).2 = img) :=
  hue_out_of_range_silently_ignored hueState0 "200" 200 (by decide)
    (Or.inr (by decide)) 200

/-- C7: submitting the gallery batch edit is a no-op when the target
sequence (the current selection) is empty — the state is returned unchanged
and the batch facade is not invoked — and, in general, no batch facade
invocation ever carries zero targets. -/
theorem submit_gallery_settings_empty_noop (s : GalleryState) :
    (get_selected_images s = [] → submit_gallery_settings s = (s, [])) ∧
    (submit_gallery_settings s).1 = s ∧
    (∀ c ∈ (submit_gallery_settings s).2, c.1 ≠ []) := by
  by_cases hsel : (get_selected_images s).isEmpty
  · refine ⟨fun _ => ?_, ?_, ?_⟩
    · unfold submit_gallery_settings
      rw [if_pos hsel]
    · unfold submit_gallery_settings
      rw [if_pos hsel]
    · intro c hc
      unfold submit_gallery_settings at hc
      rw [if_pos hsel] at hc
      simp at hc
  · refine ⟨fun hemp => ?_, ?_, ?_⟩
    · exact absurd (by rw [hemp]; rfl) hsel
    · unfold submit_gallery_settings
      rw [if_neg hsel]
    · intro c hc
      unfold submit_gallery_settings at hc
      rw [if_neg hsel] at hc
      simp at hc
      rw [hc]
      intro hnil
      have hsel2 : get_selected_images s = [] := hnil
      exact hsel (by rw [hsel2]; rfl)

theorem submit_gallery_settings_empty_noop_witness :
    get_selected_images sampleState13 = [] ∧
    submit_gallery_settings sampleState13 = (sampleState13, []) :=
  ⟨by decide, (submit_gallery_settings_empty_noop sampleState13).1 (by decide)⟩

theorem length_setFlag (l : List HeadshotData) (i : Nat) (b : Bool) :
    (setFlag l i b).length = l.length := by
  induction l generalizing i with
  | nil => rfl
  | cons d t ih =>
    cases i with
    | zero => rfl
    | succ k => simp [setFlag, ih]

theorem length_clearAll (l : List HeadshotData) : (clearAll l).length = l.length := by
  simp [clearAll]

theorem length_setItem (l : List Bool) (i : Nat) (b : Bool) :
    (setItem l i b).length = l.length := by
  induction l generalizing i with
  | nil => rfl
  | cons x t ih =>
    cases i with
    | zero => rfl
    | succ k => simp [setItem, ih]

theorem length_clearItems (l : List Bool) (n : Nat) :
    (clearItems l n).length = l.length := by
  induction l generalizing n with
  | nil => cases n <;> rfl
  | cons x t ih =>
    cases n with
    | zero => rfl
    | succ m => simp [clearItems, ih]

theorem getElem?_clearAll (l : List HeadshotData) (i : Nat) :
    (clearAll l)[i]? = (l[i]?).map (fun d => { d with is_selected := false }) := by
  induction l generalizing i with
  | nil => simp [clearAll]
  | cons d t ih =>
    cases i with
    | zero => simp [clearAll]
    | succ m => simpa [clearAll] using ih m

theorem getElem?_setFlag (l : List HeadshotData) (i : Nat) (b : Bool)
    (hi : i < l.length) (j : Nat) :
    (setFlag l i b)[j]? =
      if j = i then (l[j]?).map (fun d => { d with is_selected := b })
      else l[j]? := by
  induction l generalizing i j with
  | nil => simp at hi
  | cons d t ih =>
    cases i with
    | zero =>
      cases j with
      | zero => simp [setFlag]
      | succ m => simp [setFlag]
    | succ k =>
      cases j with
      | zero => simp [setFlag]
      | succ m =>
        have hk : k < t.length := by simpa using hi
        by_cases hmk : m = k
        · subst hmk
          simpa [setFlag] using ih m hk m
        · simp [setFlag, hmk, ih k hk m]

theorem selAt_eq_of_getElem? (l : List HeadshotData) (i : Nat) (r : HeadshotData)
    (h : l[i]? = some r) : selAt l i = r.is_selected := by
  induction l generalizing i with
  | nil => simp at h
  | cons d t ih =>
    cases i with
    | zero =>
      simp at h
      rw [h]
      rfl
    | succ m =>
      simp at h
      exact ih m h

theorem selAt_all_false (l : List HeadshotData) (i : Nat)
    (hall : ∀ d ∈ l, d.is_selected = false) : selAt l i = false := by
  induction l generalizing i with
  | nil => cases i <;> rfl
  | cons d t ih =>
    cases i with
    | zero => exact hall d (List.mem_cons_self d t)
    | succ m => exact ih m (fun x hx => hall x (List.mem_cons_of_mem d hx))

theorem selAt_setFlag_ne (l : List HeadshotData) (i j : Nat) (b : Bool)
    (hne : j ≠ i) : selAt (setFlag l i b) j = selAt l j := by
  induction l generalizing i j with
  | nil => rfl
  | cons d t ih =>
    cases i with
    | zero =>
      cases j with
      | zero => exact absurd rfl hne
      | succ m => rfl
    | succ k =>
      cases j with
      | zero => rfl
      | succ m => exact ih k m (fun h => hne (by rw [h]))

theorem setFlag_comm (l : List HeadshotData) (i j : Nat) (b c : Bool)
    (hne : i ≠ j) : setFlag (setFlag l i b) j c = setFlag (setFlag l j c) i b := by
  induction l generalizing i j with
  | nil => rfl
  | cons d t ih =>
    cases i with
    | zero =>
      cases j with
      | zero => exact absurd rfl hne
      | succ m => rfl
    | succ k =>
      cases j with
      | zero => rfl
      | succ m => simp [setFlag, ih k m (fun h => hne (by rw [h]))]

theorem filter_clearAll (l : List HeadshotData) :
    (clearAll l).filter (fun d => d.is_selected) = [] := by
  induction l with
  | nil => rfl
  | cons d t ih => simpa [clearAll, List.filter] using ih

theorem filter_all_false (l : List HeadshotData)
    (hall : ∀ d ∈ l, d.is_selected = false) :
    l.filter (fun d => d.is_selected) = [] := by
  induction l with
  | nil => rfl
  | cons d t ih =>
    have hd : d.is_selected = false := hall d (List.mem_cons_self d t)
    simp [List.filter, hd, ih (fun x hx => hall x (List.mem_cons_of_mem d hx))]

theorem filter_setFlag_singleton (l : List HeadshotData) (i : Nat) (r : HeadshotData)
    (hall : ∀ d ∈ l, d.is_selected = false) (h : l[i]? = some r) :
    (setFlag l i true).filter (fun d => d.is_selected) =
      [{ r with is_selected := true }] := by
  induction l generalizing i with
  | nil => simp at h
  | cons d t ih =>
    cases i with
    | zero =>
      simp at h
      rw [← h]
      have ht : t.filter (fun d => d.is_selected) = [] :=
        filter_all_false t (fun x hx => hall x (List.mem_cons_of_mem d hx))
      simp [setFlag, List.filter, ht]
    | succ m =>
      simp at h
      have hd : d.is_selected = false := hall d (List.mem_cons_self d t)
      simpa [setFlag, List.filter, hd] using
        ih m (fun x hx => hall x (List.mem_cons_of_mem d hx)) h

theorem filter_setFlag_pair (l : List HeadshotData) (i j : Nat)
    (ri rj : HeadshotData) (hij : i < j)
    (hall : ∀ d ∈ l, d.is_selected = false)
    (hi : l[i]? = some ri) (hj : l[j]? = some rj) :
    (setFlag (setFlag l i true) j true).filter (fun d => d.is_selected) =
      [{ ri with is_selected := true }, { rj with is_selected := true }] := by
  induction l generalizing i j with
  | nil => simp at hi
  | cons d t ih =>
    cases i with
    | zero =>
      simp at hi
      obtain ⟨m, hm⟩ : ∃ m, j = m + 1 := ⟨j - 1, by omega⟩
      subst hm
      simp at hj
      rw [← hi]
      have ht := filter_setFlag_singleton t m rj
        (fun x hx => hall x (List.mem_cons_of_mem d hx)) hj
      simp [setFlag, List.filter, ht]
    | succ k =>
      obtain ⟨m, hm⟩ : ∃ m, j = m + 1 := ⟨j - 1, by omega⟩
      subst hm
      simp at hi hj
      have hd : d.is_selected = false := hall d (List.mem_cons_self d t)
      simpa [setFlag, List.filter, hd] using
        ih k m (by omega) (fun x hx => hall x (List.mem_cons_of_mem d hx)) hi hj

theorem clearAll_clearAll (l : List HeadshotData) :
    clearAll (clearAll l) = clearAll l := by
  simp [clearAll, List.map_map]

theorem clearAll_setFlag (l : List HeadshotData) (i : Nat) (b : Bool) :
    clearAll (setFlag l i b) = clearAll l := by
  induction l generalizing i with
  | nil => rfl
  | cons d t ih =>
    cases i with
    | zero => rfl
    | succ k =>
      show { d with is_selected := false } :: clearAll (setFlag t k b) =
        { d with is_selected := false } :: clearAll t
      rw [ih k]

theorem clearItems_setItem (l : List Bool) (i n : Nat) (b : Bool) (hin : i < n) :
    clearItems (setItem l i b) n = clearItems l n := by
  induction l generalizing i n with
  | nil => rfl
  | cons x t ih =>
    cases i with
    | zero =>
      obtain ⟨m, hm⟩ : ∃ m, n = m + 1 := ⟨n - 1, by omega⟩
      subst hm
      rfl
    | succ k =>
      obtain ⟨m, hm⟩ : ∃ m, n = m + 1 := ⟨n - 1, by omega⟩
      subst hm
      simp [setItem, clearItems, ih k m (by omega)]

theorem clearItems_clearItems (l : List Bool) (n : Nat) :
    clearItems (clearItems l n) n = clearItems l n := by
  induction l generalizing n with
  | nil => cases n <;> rfl
  | cons x t ih =>
    cases n with
    | zero => rfl
    | succ m => simp [clearItems, ih]

/-- Reduction of the single-selection branch at an index within both the
gallery items and the record collection. -/
theorem select_single_eq (s : GalleryState) (i : Nat)
    (hd : i < s.headshot_data.length) (hg : i < s.gallery_items.length) :
    select_image s (i : Int) false =
      { gallery_items := setItem (clearItems s.gallery_items s.headshot_data.length) i true,
        headshot_data := setFlag (clearAll s.headshot_data) i true } := by
  have hguard : ¬(((i : Nat) : Int) < 0 ∨ (s.gallery_items.length : Int) ≤ (i : Nat) ∨
      (s.headshot_data.length : Int) ≤ (i : Nat)) := by
    push_neg
    refine ⟨by omega, by omega, by omega⟩
  unfold select_image
  rw [if_neg hguard]
  simp

/-- Reduction of the multi-selection (Ctrl) branch at an index within both
bounds. -/
theorem select_multi_eq (s : GalleryState) (i : Nat)
    (hd : i < s.headshot_data.length) (hg : i < s.gallery_items.length) :
    select_image s (i : Int) true =
      { gallery_items := setItem s.gallery_items i (!selAt s.headshot_data i),
        headshot_data := setFlag s.headshot_data i (!selAt s.headshot_data i) } := by
  have hguard : ¬(((i : Nat) : Int) < 0 ∨ (s.gallery_items.length : Int) ≤ (i : Nat) ∨
      (s.headshot_data.length : Int) ≤ (i : Nat)) := by
    push_neg
    refine ⟨by omega, by omega, by omega⟩
  unfold select_image
  rw [if_neg hguard]
  simp

theorem galleryStateExt (a b : GalleryState)
    (h1 : a.gallery_items = b.gallery_items)
    (h2 : a.headshot_data = b.headshot_data) : a = b := by
  cases a
  cases b
  cases h1
  cases h2
  rfl

theorem select_single_data (s : GalleryState) (i : Nat)
    (hd : i < s.headshot_data.length) (hg : i < s.gallery_items.length) :
    (select_image s (i : Int) false).headshot_data =
      setFlag (clearAll s.headshot_data) i true := by
  rw [select_single_eq s i hd hg]

theorem select_single_items (s : GalleryState) (i : Nat)
    (hd : i < s.headshot_data.length) (hg : i < s.gallery_items.length) :
    (select_image s (i : Int) false).gallery_items =
      setItem (clearItems s.gallery_items s.headshot_data.length) i true := by
  rw [select_single_eq s i hd hg]

theorem select_multi_data (s : GalleryState) (i : Nat)
    (hd : i < s.headshot_data.length) (hg : i < s.gallery_items.length) :
    (select_image s (i : Int) true).headshot_data =
      setFlag s.headshot_data i (!selAt s.headshot_data i) := by
  rw [select_multi_eq s i hd hg]

theorem select_multi_items (s : GalleryState) (i : Nat)
    (hd : i < s.headshot_data.length) (hg : i < s.gallery_items.length) :
    (select_image s (i : Int) true).gallery_items =
      setItem s.gallery_items i (!selAt s.headshot_data i) := by
  rw [select_multi_eq s i hd hg]

/-- C1 amended: for an index within both the record collection's and the
gallery items' bounds, a single (non-Ctrl) selection sets exactly the
clicked record's flag and clears every other record's flag, the current
selection is then exactly the clicked record (now flagged), and repeating
the same single selection changes nothing (the operation is idempotent). -/
theorem select_image_single_sound (s : GalleryState) (i : Nat)
    (hd : i < s.headshot_data.length) (hg : i < s.gallery_items.length) :
    (∀ j : Nat, ((select_image s (i : Int) false).headshot_data[j]?).map
        (fun d => d.is_selected) =
      (s.headshot_data[j]?).map (fun _ => decide (j = i))) ∧
    (∀ ri, s.headshot_data[i]? = some ri →
      get_selected_images (select_image s (i : Int) false) =
        [{ ri with is_selected := true }]) ∧
    select_image (select_image s (i : Int) false) (i : Int) false =
      select_image s (i : Int) false := by
  have hdc : i < (clearAll s.headshot_data).length := by
    rw [length_clearAll]
    exact hd
  refine ⟨?_, ?_, ?_⟩
  · intro j
    rw [select_single_data s i hd hg, getElem?_setFlag _ i true hdc j,
      getElem?_clearAll]
    by_cases hji : j = i
    · subst hji
      rcases h2 : s.headshot_data[j]? with _ | d <;> simp [h2]
    · rcases h2 : s.headshot_data[j]? with _ | d <;> simp [h2, hji]
  · intro ri hri
    show (select_image s (i : Int) false).headshot_data.filter
      (fun d => d.is_selected) = _
    rw [select_single_data s i hd hg]
    have hci : (clearAll s.headshot_data)[i]? =
        some { ri with is_selected := false } := by
      rw [getElem?_clearAll, hri]
      rfl
    have hall : ∀ d ∈ clearAll s.headshot_data, d.is_selected = false := by
      intro d hdm
      obtain ⟨x, _, hx⟩ := List.mem_map.mp hdm
      rw [← hx]
    exact filter_setFlag_singleton (clearAll s.headshot_data) i
      { ri with is_selected := false } hall hci
  · have hd2 : i < (select_image s (i : Int) false).headshot_data.length := by
      rw [select_single_data s i hd hg, length_setFlag, length_clearAll]
      exact hd
    have hg2 : i < (select_image s (i : Int) false).gallery_items.length := by
      rw [select_single_items s i hd hg, length_setItem, length_clearItems]
      exact hg
    refine galleryStateExt _ _ ?_ ?_
    · rw [select_single_items (select_image s (i : Int) false) i hd2 hg2,
        select_single_items s i hd hg, select_single_data s i hd hg,
        length_setFlag, length_clearAll,
        clearItems_setItem _ i s.headshot_data.length true hd,
        clearItems_clearItems]
    · rw [select_single_data (select_image s (i : Int) false) i hd2 hg2,
        select_single_data s i hd hg, clearAll_setFlag, clearAll_clearAll]

/-- C1 counterexample to the claim as stated: in the state the program
reaches after loading 13 files (12 gallery tiles, 13 records), index 12 is
within the collection's bounds but the single selection of it mutates
nothing — the bounds check also tests the gallery-item list — so the
current selection is not `[R[12]]`. -/
theorem select_image_single_sound_cex :
    12 < sampleState13.headshot_data.length ∧
    select_image sampleState13 (12 : Int) false = sampleState13 ∧
    get_selected_images (select_image sampleState13 (12 : Int) false) ≠
      [{ mkRec 12 with is_selected := true }] :=
  ⟨by decide, by decide, by decide⟩

theorem select_image_single_sound_witness :
    get_selected_images (select_image sampleState13 ((5 : Nat) : Int) false) =
      [{ mkRec 5 with is_selected := true }] ∧
    select_image (select_image sampleState13 ((5 : Nat) : Int) false)
      ((5 : Nat) : Int) false =
      select_image sampleState13 ((5 : Nat) : Int) false :=
  ⟨(select_image_single_sound sampleState13 5 (by decide) (by decide)).2.1
      (mkRec 5) (by decide),
   (select_image_single_sound sampleState13 5 (by decide) (by decide)).2.2⟩

/-- C2 amended: for distinct indices within both the collection's and the
gallery items' bounds, a Ctrl (multi) selection flips exactly the clicked
record's flag, leaving every other record untouched; and starting from a
state in which no record is selected, toggling `i` then `j` yields a
current selection of exactly the two clicked records, in collection
order. -/
theorem select_image_multi_sound (s : GalleryState) (i j : Nat)
    (hdi : i < s.headshot_data.length) (hgi : i < s.gallery_items.length)
    (hdj : j < s.headshot_data.length) (hgj : j < s.gallery_items.length)
    (hij : i ≠ j)
    (hall : ∀ d ∈ s.headshot_data, d.is_selected = false) :
    (∀ k : Nat, (select_image s (i : Int) true).headshot_data[k]? =
      if k = i then
        (s.headshot_data[k]?).map (fun d => { d with is_selected := !d.is_selected })
      else s.headshot_data[k]?) ∧
    (∀ ri rj, s.headshot_data[i]? = some ri → s.headshot_data[j]? = some rj →
      get_selected_images
          (select_image (select_image s (i : Int) true) (j : Int) true) =
        if i < j then
          [{ ri with is_selected := true }, { rj with is_selected := true }]
        else
          [{ rj with is_selected := true }, { ri with is_selected := true }]) := by
  have hfi : selAt s.headshot_data i = false := selAt_all_false _ i hall
  have hdata1 : (select_image s (i : Int) true).headshot_data =
      setFlag s.headshot_data i true := by
    rw [select_multi_data s i hdi hgi, hfi]
    rfl
  refine ⟨?_, ?_⟩
  · intro k
    rw [hdata1, getElem?_setFlag _ i true hdi k]
    by_cases hki : k = i
    · subst hki
      rcases h2 : s.headshot_data[k]? with _ | d
      · simp
      · have hflag : d.is_selected = false := hall d (List.getElem?_mem h2)
        simp [hflag]
    · simp [hki]
  · intro ri rj hri hrj
    have hd2 : j < (select_image s (i : Int) true).headshot_data.length := by
      rw [hdata1, length_setFlag]
      exact hdj
    have hg2 : j < (select_image s (i : Int) true).gallery_items.length := by
      rw [select_multi_items s i hdi hgi, length_setItem]
      exact hgj
    have hfj : selAt (select_image s (i : Int) true).headshot_data j = false := by
      rw [hdata1, selAt_setFlag_ne _ i j true (Ne.symm hij)]
      exact selAt_all_false _ j hall
    have hdata2 : (select_image (select_image s (i : Int) true) (j : Int) true).headshot_data =
        setFlag (setFlag s.headshot_data i true) j true := by
      rw [select_multi_data (select_image s (i : Int) true) j hd2 hg2, hfj, hdata1]
      rfl
    show (select_image (select_image s (i : Int) true) (j : Int) true).headshot_data.filter
      (fun d => d.is_selected) = _
    rw [hdata2]
    rcases Nat.lt_or_ge i j with hlt | hge
    · rw [if_pos hlt]
      exact filter_setFlag_pair s.headshot_data i j ri rj hlt hall hri hrj
    · have hgt : j < i := by omega
      rw [if_neg (by omega), setFlag_comm _ i j true true hij]
      exact filter_setFlag_pair s.headshot_data j i rj ri hgt hall hrj hri

/-- C2 counterexample to the claim as stated: after a 13-file load, indices
0 and 12 are distinct, within the collection's bounds, and both records are
unselected, yet the multi toggle of 12 flips nothing (the bounds check also
tests the 12 gallery tiles), so toggling 0 then 12 selects only `R[0]`. -/
theorem select_image_multi_sound_cex :
    12 < sampleState13.headshot_data.length ∧
    select_image sampleState13 (12 : Int) true = sampleState13 ∧
    get_selected_images
        (select_image (select_image sampleState13 (0 : Int) true) (12 : Int) true) =
      [{ mkRec 0 with is_selected := true }] ∧
    get_selected_images
        (select_image (select_image sampleState13 (0 : Int) true) (12 : Int) true) ≠
      [{ mkRec 0 with is_selected := true }, { mkRec 12 with is_selected := true }] :=
  ⟨by decide, by decide, by decide, by decide⟩

theorem select_image_multi_sound_witness :
    get_selected_images
        (select_image (select_image sampleState13 ((1 : Nat) : Int) true)
          ((3 : Nat) : Int) true) =
      [{ mkRec 1 with is_selected := true }, { mkRec 3 with is_selected := true }] := by
  have h := (select_image_multi_sound sampleState13 1 3 (by decide) (by decide)
    (by decide) (by decide) (by decide) (by decide)).2
    (mkRec 1) (mkRec 3) (by decide) (by decide)
  rw [if_pos (by decide : (1 : Nat) < 3)] at h
  exact h

theorem wf_dset (d : List (String × Int)) (k : String) (v : Int)
    (hwf : wfSettings d) (hkv : entryOk (k, v) = true) :
    wfSettings (dset d k v) := by
  induction d with
  | nil =>
    intro kv hkv2
    simp [dset] at hkv2
    rw [hkv2]
    exact hkv
  | cons kv0 rest ih =>
    by_cases h : kv0.1 = k
    · intro kv hkv2
      rw [dset, if_pos h] at hkv2
      rcases List.mem_cons.mp hkv2 with h2 | h2
      · rw [h2]
        exact hkv
      · exact hwf kv (List.mem_cons_of_mem kv0 h2)
    · intro kv hkv2
      rw [dset, if_neg h] at hkv2
      rcases List.mem_cons.mp hkv2 with h2 | h2
      · rw [h2]
        exact hwf kv0 (List.mem_cons_self kv0 rest)
      · exact ih (fun x hx => hwf x (List.mem_cons_of_mem kv0 hx)) kv h2

theorem entryOk_editor (p : String) (v : Int) (hp : p ∈ editorParams)
    (hlo : -100 ≤ v) (hhi : v ≤ 100) : entryOk (p, v) = true := by
  have hr : paramRange p = some (-100, 100) := by
    unfold paramRange
    rw [if_pos hp]
  unfold entryOk
  rw [hr]
  simp
  exact ⟨hlo, hhi⟩

theorem mem_setSettings (l : List HeadshotData) (i : Nat)
    (d : List (String × Int)) (r : HeadshotData)
    (h : r ∈ setSettings l i d) : r ∈ l ∨ r.edit_settings = d := by
  induction l generalizing i with
  | nil => simp [setSettings] at h
  | cons x t ih =>
    cases i with
    | zero =>
      rcases List.mem_cons.mp h with h2 | h2
      · right
        rw [h2]
      · left
        exact List.mem_cons_of_mem x h2
    | succ k =>
      rcases List.mem_cons.mp h with h2 | h2
      · left
        rw [h2]
        exact List.mem_cons_self x t
      · rcases ih k h2 with h3 | h3
        · exact Or.inl (List.mem_cons_of_mem x h3)
        · exact Or.inr h3

theorem mem_clearAll_settings (l : List HeadshotData) (r : HeadshotData)
    (h : r ∈ clearAll l) : ∃ x ∈ l, r.edit_settings = x.edit_settings := by
  obtain ⟨x, hx, hr⟩ := List.mem_map.mp h
  exact ⟨x, hx, by rw [← hr]⟩

theorem mem_setFlag_settings (l : List HeadshotData) (i : Nat) (b : Bool)
    (r : HeadshotData) (h : r ∈ setFlag l i b) :
    ∃ x ∈ l, r.edit_settings = x.edit_settings := by
  induction l generalizing i with
  | nil => simp [setFlag] at h
  | cons x t ih =>
    cases i with
    | zero =>
      rcases List.mem_cons.mp h with h2 | h2
      · exact ⟨x, List.mem_cons_self x t, by rw [h2]⟩
      · exact ⟨r, List.mem_cons_of_mem x h2, rfl⟩
    | succ k =>
      rcases List.mem_cons.mp h with h2 | h2
      · exact ⟨x, List.mem_cons_self x t, by rw [h2]⟩
      · obtain ⟨y, hy, hr⟩ := ih k h2
        exact ⟨y, List.mem_cons_of_mem x hy, hr⟩

theorem select_image_settings_mem (g : GalleryState) (index : Int) (ctrl : Bool)
    (r : HeadshotData) (h : r ∈ (select_image g index ctrl).headshot_data) :
    ∃ x ∈ g.headshot_data, r.edit_settings = x.edit_settings := by
  unfold select_image at h
  by_cases hguard : index < 0 ∨ (g.gallery_items.length : Int) ≤ index ∨
      (g.headshot_data.length : Int) ≤ index
  · rw [if_pos hguard] at h
    exact ⟨r, h, rfl⟩
  · rw [if_neg hguard] at h
    cases ctrl with
    | true =>
      simp only [if_pos] at h
      exact mem_setFlag_settings _ _ _ r h
    | false =>
      simp only [if_neg] at h
      obtain ⟨y, hy, hr⟩ := mem_setFlag_settings _ _ _ r h
      obtain ⟨z, hz, hy2⟩ := mem_clearAll_settings _ y hy
      exact ⟨z, hz, by rw [hr, hy2]⟩

theorem apply_preset_image_data (pm : PresetManager) (preset_name : String)
    (r : HeadshotData) : (apply_preset pm preset_name r).image_data = r := by
  unfold apply_preset
  cases dget? pm.presets preset_name <;> simp [apiClientApplyPreset]

/-- C8: every coordinator operation preserves the adjustment-mapping
invariant — on every record of the collection, and on the editor tab's
working dict, only recognized parameter names appear and every value lies
within the parameter's declared range. -/
theorem adjustment_invariant_preserved (s1 s2 : AppState)
    (hinv : Invariant s1) (hstep : Step s1 s2) : Invariant s2 := by
  obtain ⟨hrec, hed⟩ := hinv
  cases hstep with
  | load paths md =>
    refine ⟨?_, hed⟩
    intro r hr
    unfold load_images_op at hr
    simp only at hr
    obtain ⟨p, _, hp⟩ := List.mem_map.mp hr
    rw [← hp]
    intro kv hkv
    simp [HeadshotData.mk0] at hkv
  | select index ctrl =>
    refine ⟨?_, hed⟩
    intro r hr
    obtain ⟨x, hx, hset⟩ := select_image_settings_mem s1.gallery index ctrl r hr
    rw [hset]
    exact hrec x hx
  | setCurrent i =>
    refine ⟨hrec, ?_⟩
    unfold set_current_image
    simp only
    rcases h2 : s1.gallery.headshot_data[i]? with _ | r
    · exact hed
    · exact hrec r (List.getElem?_mem h2)
  | slider p v hp hlo hhi =>
    exact ⟨hrec, wf_dset s1.editor_settings p v hed (entryOk_editor p v hp hlo hhi)⟩
  | resetEditor =>
    refine ⟨?_, ?_⟩
    · intro r hr
      unfold reset_editor_settings at hr
      simp only at hr
      rcases h2 : s1.editor_current with _ | i
      · rw [h2] at hr
        exact hrec r hr
      · rw [h2] at hr
        rcases mem_setSettings _ _ _ r hr with h3 | h3
        · exact hrec r h3
        · rw [h3]
          intro kv hkv
          simp at hkv
    · intro kv hkv
      unfold reset_editor_settings at hkv
      simp at hkv
  | saveCurrent =>
    unfold save_current_edits
    rcases h2 : s1.editor_current with _ | i
    · exact ⟨hrec, hed⟩
    · refine ⟨?_, hed⟩
      intro r hr
      rcases mem_setSettings s1.gallery.headshot_data i s1.editor_settings r hr with h3 | h3
      · exact hrec r h3
      · rw [h3]
        exact hed
  | applyPreset pm preset_name =>
    refine ⟨?_, hed⟩
    intro r hr
    unfold apply_preset_selected_app at hr
    simp only at hr
    obtain ⟨x, hx, hr2⟩ := List.mem_map.mp hr
    have hxr : r = x := by
      rw [← hr2]
      by_cases hsel : x.is_selected
      · rw [if_pos hsel, apply_preset_image_data]
      · rw [if_neg hsel]
    rw [hxr]
    exact hrec x hx

theorem adjustment_invariant_preserved_witness :
    Invariant app0 ∧ Invariant (on_slider_changed app0 "Brightness" 50) :=
  ⟨by decide,
   adjustment_invariant_preserved app0 (on_slider_changed app0 "Brightness" 50)
     (by decide)
     (Step.slider app0 "Brightness" 50 (by decide) (by decide) (by decide))⟩

end HeadshotViewer
